import Mathlib

/-!
Verification of the ESP ambient logger firmware (`src/main.cpp`, plus the
earlier revision in `src/unnamed/part_000`) against its natural-language
specification.  The firmware is shallowly embedded: sensor readings are
modelled as `Option ℚ` (a `none` stands for a NaN reading), the 32-bit
unsigned millisecond clock arithmetic is modelled on `ℕ` with an explicit
reduction modulo 2^32, and the external capabilities (radio link, HTTP
transport, serial log) are modelled as explicit inputs/outputs of the
state-transition functions.
-/

/-- 2^32, the modulus of `unsigned long` arithmetic on the ESP8266. -/
def UINT32_MOD : ℕ := 4294967296

/-- The value of the C expression `now - last` on `unsigned long` operands,
for mathematical (unbounded, monotone) timestamps `now` and `last`:
subtraction wraps modulo 2^32. -/
def sub32 (now last : ℕ) : ℕ :=
  (now + UINT32_MOD - last % UINT32_MOD) % UINT32_MOD

-- ---------------------------- Wi-Fi Manager ----------------------------

/-- One call to `WiFiManager::update` (`src/main.cpp` lines 15-37), viewed
from the connection-supervisor state.  State is the `lastAttempt` timestamp;
inputs are the current `millis()` reading `now` and whether `WiFi.status()`
reports connected at entry.  Returns the new `lastAttempt` and whether a
connect request (`WiFi.begin`) was issued. -/
def wifiStep (timeout last now : ℕ) (connected : Bool) : ℕ × Bool :=
  if connected then (last, false)
  else if sub32 now last < timeout then (last, false)
  else (now, true)

/-- Repeated calls to `WiFiManager::update`, one per tick.  Each tick carries
its `millis()` value and the link status at entry.  Returns the final
`lastAttempt` together with the list of ticks at which a connect request was
issued. -/
def wifiRun (timeout last : ℕ) (ticks : List (ℕ × Bool)) : ℕ × List (ℕ × Bool) :=
  match ticks with
  | [] => (last, [])
  | (now, c) :: ts =>
    let s := wifiStep timeout last now c
    let r := wifiRun timeout s.1 ts
    (r.1, if s.2 then (now, c) :: r.2 else r.2)

/-- The serial log emitted by one call to `WiFiManager::update` in the
revision `src/unnamed/part_000` (lines 14-37).  That revision logs the
password itself (`Serial.printf("%s\n", pass)`, line 22) right after the
connecting banner.  `dots`, `success` and `ipAddr` describe the link
capability's behaviour during the bounded poll, which is independent of the
logger. -/
def wifiUpdateLogV0 (ssid pass : String) (timeout last now : ℕ) (connected : Bool)
    (dots : ℕ) (success : Bool) (ipAddr : String) : List String :=
  if connected then []
  else if sub32 now last < timeout then []
  else
    ("Connecting to Wi-Fi: " ++ ssid) :: pass ::
      (List.replicate dots "." ++
        (if success then ["\nWi-Fi Connected!", "IP Address: " ++ ipAddr]
         else ["\nWi-Fi connection failed, will retry..."]))

-- ---------------------------- BME280 Sensor ----------------------------

/-- The sample-buffer state of `BME280Sensor` (`src/main.cpp` lines 47-101):
three channel buffers of capacity `SAMPLE_SIZE` (kept as a parameter `N`
below, since `main.h` defines it out of tree), a single shared write cursor
`index`, and the `filled` flag. -/
structure BME280Sensor where
  tempBuffer : List ℚ
  humBuffer : List ℚ
  presBuffer : List ℚ
  index : ℕ
  filled : Bool
deriving Repr, DecidableEq

/-- The freshly constructed sensor: zero-initialised buffers
(`std::array<float, SAMPLE_SIZE> tempBuffer{}`), `index = 0`,
`filled = false` (constructor, line 49). -/
def BME280Sensor.init (N : ℕ) : BME280Sensor :=
  ⟨List.replicate N 0, List.replicate N 0, List.replicate N 0, 0, false⟩

/-- `BME280Sensor::update` (lines 59-76).  The three raw readings are
`Option ℚ` (`none` models an `isnan` value).  If any reading is invalid the
whole sample is dropped and the state is unchanged; otherwise all three
values are stored at the shared cursor, the cursor advances modulo `N`, and
`filled` is set when the cursor wraps to 0. -/
def BME280Sensor.update (N : ℕ) (s : BME280Sensor) (t h p : Option ℚ) : BME280Sensor :=
  match t, h, p with
  | some tv, some hv, some pv =>
    { tempBuffer := s.tempBuffer.set s.index tv
      humBuffer := s.humBuffer.set s.index hv
      presBuffer := s.presBuffer.set s.index pv
      index := (s.index + 1) % N
      filled := s.filled || ((s.index + 1) % N == 0) }
  | _, _, _ => s

/-- `BME280Sensor::average` (lines 93-100): mean of the first
`count = filled ? SAMPLE_SIZE : index` slots, `none` (NaN in the source)
when `count = 0`. -/
def average (N : ℕ) (filled : Bool) (index : ℕ) (buffer : List ℚ) : Option ℚ :=
  let count := if filled then N else index
  if count = 0 then none
  else some ((buffer.take count).sum / (count : ℚ))

/-- `getAverageTemperature` (line 78). -/
def BME280Sensor.getAverageTemperature (N : ℕ) (s : BME280Sensor) : Option ℚ :=
  average N s.filled s.index s.tempBuffer

/-- `getAverageHumidity` (line 79). -/
def BME280Sensor.getAverageHumidity (N : ℕ) (s : BME280Sensor) : Option ℚ :=
  average N s.filled s.index s.humBuffer

/-- `getAveragePressure` (line 80). -/
def BME280Sensor.getAveragePressure (N : ℕ) (s : BME280Sensor) : Option ℚ :=
  average N s.filled s.index s.presBuffer

/-- A sequence of `BME280Sensor::update` calls. -/
def BME280Sensor.run (N : ℕ) (s : BME280Sensor) (L : List (Option ℚ × Option ℚ × Option ℚ)) :
    BME280Sensor :=
  L.foldl (fun st r => st.update N r.1 r.2.1 r.2.2) s

/-- A sequence of valid ingests (every channel reading present) from the
freshly constructed sensor. -/
def runValid (N : ℕ) (L : List (ℚ × ℚ × ℚ)) : BME280Sensor :=
  BME280Sensor.run N (BME280Sensor.init N) (L.map fun r => (some r.1, some r.2.1, some r.2.2))

-- ---------------------------- Data Sender ----------------------------

/-- The spec's `SendResult`: `DataSender::send` returns early with a log
line when the link is down (lines 110-113), otherwise reports the HTTP
code (positive: response delivered) or a transport error (non-positive). -/
inductive SendResult where
  | linkDown
  | delivered (code : ℤ)
  | transportError
deriving Repr, DecidableEq

/-- Observable outcome of one `DataSender::send` call: the result, how many
times the HTTP transport was invoked, and the POST body if one was built. -/
structure SendOutcome where
  result : SendResult
  transportCalls : ℕ
  body : Option String
deriving Repr, DecidableEq

/-- Arduino `String(value, 2)`: the value rounded to two decimal places
(half away from zero, as `dtostrf` does by adding 0.5 to the magnitude),
always printed with exactly two digits after the point.  The numeric value
is modelled in `ℚ`.  `hundredthsAbs x` is the rounded count of hundredths
of a non-negative `x`, i.e. the floor of `x * 100 + 1/2`, written with
`Int.fdiv` on the reduced fraction so that it evaluates by kernel
reduction. -/
def hundredthsAbs (x : ℚ) : ℕ :=
  (Int.fdiv (x * 100 + 1 / 2).num ((x * 100 + 1 / 2).den : ℤ)).toNat

/-- Render a count of hundredths as a fixed two-decimal string. -/
def renderHundredths (n : ℕ) : String :=
  toString (n / 100) ++ "." ++
    (if n % 100 < 10 then "0" ++ toString (n % 100) else toString (n % 100))

/-- `String(x, 2)` from the payload-building code (lines 124-126). -/
def fmt2 (x : ℚ) : String :=
  if x < 0 then "-" ++ renderHundredths (hundredthsAbs (-x))
  else renderHundredths (hundredthsAbs x)

/-- The JSON payload built by `DataSender::send` (lines 121-127), verbatim
string concatenation. -/
def payload (apiKey : String) (t h p : ℚ) : String :=
  "\x7b" ++ "\"api_key\":\"" ++ apiKey ++ "\"," ++ "\"content\":\x7b" ++
    "\"temperature\":" ++ fmt2 t ++ "," ++ "\"humidity\":" ++ fmt2 h ++ "," ++
    "\"pressure\":" ++ fmt2 p ++ "\x7d\x7d"

/-- `DataSender::send` (lines 109-136).  `connected` is the `WiFi.status()`
reading at entry; `transportCode` is the value `http.POST` would return if
invoked (the transport capability's behaviour). -/
def DataSender.send (apiKey : String) (connected : Bool) (t h p : ℚ)
    (transportCode : ℤ) : SendOutcome :=
  if connected = false then ⟨SendResult.linkDown, 0, none⟩
  else
    ⟨if transportCode > 0 then SendResult.delivered transportCode else SendResult.transportError,
      1, some (payload apiKey t h p)⟩

-- ---------------------------- Main loop ----------------------------

/-- The scheduler state owned by `loop` (`src/main.cpp` lines 149, 165-186):
the sensor and the `lastSend` cadence timestamp. -/
structure LoopState where
  sensor : BME280Sensor
  lastSend : ℕ
deriving Repr, DecidableEq

/-- Observable events of one `loop` iteration: whether the cadence branch
was entered (a report was attempted), how many skip log lines were emitted,
how many times the HTTP transport was invoked, and whether
`DataSender::send` was called. -/
structure TickEvents where
  attempted : Bool
  skips : ℕ
  transportCalls : ℕ
  sentCalled : Bool
deriving Repr, DecidableEq

/-- One iteration of `loop` (lines 165-186): return early when the link is
down; otherwise store one sample, and when `now - lastSend >= INTERVAL_MS`
set `lastSend = now`, compute the three averages, skip with one log line if
any is NaN, else call `DataSender::send`.  `interval` stands for the
out-of-tree constant `INTERVAL_MS`. -/
def loopTick (N interval : ℕ) (apiKey : String) (st : LoopState) (connected : Bool)
    (now : ℕ) (t h p : Option ℚ) (transportCode : ℤ) : LoopState × TickEvents :=
  if connected = false then (st, ⟨false, 0, 0, false⟩)
  else
    let sensor := st.sensor.update N t h p
    if interval ≤ sub32 now st.lastSend then
      match sensor.getAverageTemperature N, sensor.getAverageHumidity N,
            sensor.getAveragePressure N with
      | some ta, some ha, some pa =>
        let out := DataSender.send apiKey true ta ha pa transportCode
        (⟨sensor, now⟩, ⟨true, 0, out.transportCalls, true⟩)
      | _, _, _ => (⟨sensor, now⟩, ⟨true, 1, 0, false⟩)
    else (⟨sensor, st.lastSend⟩, ⟨false, 0, 0, false⟩)

/-- `setup` (lines 152-162) calls `wifiManager.update()` once before the
loop, with the constructor-initialised `lastAttempt = 0` (line 13).
Returns `(new lastAttempt, whether a connect request was issued)`. -/
def setupWifiCall (timeout now : ℕ) (connected : Bool) : ℕ × Bool :=
  wifiStep timeout 0 now connected

-- ---------------------------- Helper lemmas ----------------------------

/-- On a monotone clock with a bounded gap, the wrapping 32-bit elapsed-time
computation agrees with true elapsed time. -/
theorem sub32_eq_sub (now last : ℕ) (hle : last ≤ now) (hb : now - last < UINT32_MOD) :
    sub32 now last = now - last := by
  unfold sub32 UINT32_MOD at *
  omega

/-- Characterisation of one `WiFiManager::update` call: a connect request is
issued exactly when the link is down and at least `timeout` wrapped
milliseconds have elapsed since `lastAttempt`, and `lastAttempt` is set to
`now` exactly on an attempt. -/
theorem wifiStep_spec (timeout last now : ℕ) (connected : Bool) :
    ((wifiStep timeout last now connected).2 = true ↔
      (connected = false ∧ timeout ≤ sub32 now last)) ∧
    (wifiStep timeout last now connected).1 =
      (if connected = false ∧ timeout ≤ sub32 now last then now else last) := by
  cases connected
  · simp only [wifiStep, Bool.false_eq_true, if_false, true_and, reduceIte]
    rcases Nat.lt_or_ge (sub32 now last) timeout with hc | hc
    · rw [if_pos hc, if_neg (by omega)]
      simp
      omega
    · rw [if_neg (Nat.not_lt.mpr hc), if_pos (by omega)]
      simp
      omega
  · simp [wifiStep]

-- ---------------------------- Claim theorems ----------------------------

/-- Claim C4: whenever `DataSender::send` is called while the link is not
connected, it returns `LinkDown` immediately, the transport is invoked zero
times, and no request body is constructed. -/
theorem C4_send_linkDown_no_transport (apiKey : String) (t h p : ℚ) (code : ℤ) :
    DataSender.send apiKey false t h p code =
      ⟨SendResult.linkDown, 0, none⟩ := rfl

/-- Claim C5: the POST body of a successful `DataSender::send` is a JSON
object with exactly the two top-level keys `api_key` then `content`, the
latter holding `temperature`, `humidity`, `pressure` in that order, each
formatted to exactly two decimal digits; in particular for
temperature 21.567, humidity 55.1, pressure 1013.0, api_key "abc" the body
is exactly the string required by the spec. -/
theorem C5_payload_exact (apiKey : String) (t h p : ℚ) (code : ℤ) :
    ((DataSender.send apiKey true t h p code).body =
      some ("\x7b" ++ "\"api_key\":\"" ++ apiKey ++ "\"," ++ "\"content\":\x7b" ++
        "\"temperature\":" ++ fmt2 t ++ "," ++ "\"humidity\":" ++ fmt2 h ++ "," ++
        "\"pressure\":" ++ fmt2 p ++ "\x7d\x7d")) ∧
    (DataSender.send "abc" true (21567 / 1000 : ℚ) (551 / 10 : ℚ) 1013 200).body =
      some "\x7b\"api_key\":\"abc\",\"content\":\x7b\"temperature\":21.57,\"humidity\":55.10,\"pressure\":1013.00\x7d\x7d" := by
  constructor
  · rfl
  · with_unfolding_all rfl

/-- Claim C7: `BME280Sensor::update` drops the whole sample when any one of
the three channel readings is invalid: all buffers, the shared cursor and
the `filled` flag are left exactly unchanged. -/
theorem C7_invalid_sample_dropped (N : ℕ) (s : BME280Sensor) (t h p : Option ℚ)
    (hinv : t = none ∨ h = none ∨ p = none) :
    s.update N t h p = s := by
  cases t <;> cases h <;> cases p <;> first
    | rfl
    | (rcases hinv with h1 | h1 | h1 <;> simp_all)

/-- Witness for C7 at a concrete invalid sample. -/
theorem C7_invalid_sample_dropped_witness :
    (BME280Sensor.init 3).update 3 none (some 1) (some 2) = BME280Sensor.init 3 :=
  C7_invalid_sample_dropped 3 (BME280Sensor.init 3) none (some 1) (some 2) (Or.inl rfl)

/-- Counterexample to claim C8 as stated: at startup (boot-time
`millis() = 0`, link down, `lastAttempt` constructor-initialised to 0) the
single `wifiManager.update()` call made by `setup` issues no connect
request when the reconnect timeout is positive (here 1000 ms), because
`now - lastAttempt = 0 < timeout`. -/
theorem C8_startup_counterexample : (setupWifiCall 1000 0 false).2 = false := rfl

/-- Claim C8 (amended): at startup the program calls the connection
supervisor once before entering the loop, but this call issues a connect
request only when the link is down and the boot-time clock reading is at
least `timeout` (since `lastAttempt` starts at 0); when it does, the
attempt timestamp is set to that clock reading. -/
theorem C8_startup_single_conditional_attempt (timeout now : ℕ) (connected : Bool) :
    ((setupWifiCall timeout now connected).2 = true ↔
      (connected = false ∧ timeout ≤ sub32 now 0)) ∧
    (setupWifiCall timeout now connected).1 =
      (if connected = false ∧ timeout ≤ sub32 now 0 then now else 0) := by
  unfold setupWifiCall
  exact wifiStep_spec timeout 0 now connected

/-- Claim C10: sensor operations preserve `index < SAMPLE_SIZE`, the
`filled` flag is never cleared once set, and `average` uses a count of at
most `SAMPLE_SIZE`, reading exactly that many in-bounds slots. -/
theorem C10_sensor_invariants (N : ℕ) (hN : 0 < N) (s : BME280Sensor)
    (hidx : s.index < N) (hlen : s.tempBuffer.length = N) (t h p : Option ℚ) :
    (s.update N t h p).index < N ∧
    (s.filled = true → (s.update N t h p).filled = true) ∧
    (if s.filled then N else s.index) ≤ N ∧
    (s.tempBuffer.take (if s.filled then N else s.index)).length =
      (if s.filled then N else s.index) := by
  refine ⟨?_, ?_, ?_, ?_⟩
  · cases t <;> cases h <;> cases p <;>
      simp only [BME280Sensor.update] <;>
      first
        | exact hidx
        | exact Nat.mod_lt _ hN
  · intro hf
    cases t <;> cases h <;> cases p <;>
      simp_all [BME280Sensor.update]
  · split <;> omega
  · rw [List.length_take, hlen]
    split <;> omega

/-- Witness for C10 at a concrete state and sample. -/
theorem C10_sensor_invariants_witness :
    0 < 3 ∧ ((BME280Sensor.init 3).update 3 (some 1) (some 2) (some 3)).index < 3 :=
  ⟨by decide,
    (C10_sensor_invariants 3 (by decide) (BME280Sensor.init 3) (by decide) (by decide)
      (some 1) (some 2) (some 3)).1⟩

/-- Claim C3: in every loop iteration the cadence branch (a report attempt)
is entered exactly when the link is up and `now - lastSend >= INTERVAL_MS`,
and `lastSend` is set to `now` exactly then — at attempt time, independently
of the sample readings, of whether the send is skipped for missing data,
and of the transport's result. -/
theorem C3_report_cadence (N interval : ℕ) (key : String) (st : LoopState)
    (connected : Bool) (now : ℕ) (t h p : Option ℚ) (code : ℤ) :
    ((loopTick N interval key st connected now t h p code).2.attempted = true ↔
      (connected = true ∧ interval ≤ sub32 now st.lastSend)) ∧
    (loopTick N interval key st connected now t h p code).1.lastSend =
      (if connected = true ∧ interval ≤ sub32 now st.lastSend then now
       else st.lastSend) := by
  cases connected
  · simp [loopTick]
  · by_cases hc : interval ≤ sub32 now st.lastSend
    · unfold loopTick
      rw [if_neg (by simp), if_pos hc]
      split <;> simp [hc]
    · unfold loopTick
      rw [if_neg (by simp), if_neg hc]
      simp [hc]

/-- Claim C6: in a send cycle (link up, cadence elapsed), if any one of the
three channel averages is missing then the transport is invoked zero times,
exactly one skip log line is emitted and `DataSender::send` is not called;
`DataSender::send` is called only when all three averages are valid. -/
theorem C6_skip_on_missing_average (N interval : ℕ) (key : String) (st : LoopState)
    (now : ℕ) (t h p : Option ℚ) (code : ℤ)
    (helapsed : interval ≤ sub32 now st.lastSend) :
    ((st.sensor.update N t h p).getAverageTemperature N = none ∨
     (st.sensor.update N t h p).getAverageHumidity N = none ∨
     (st.sensor.update N t h p).getAveragePressure N = none →
      (loopTick N interval key st true now t h p code).2 = ⟨true, 1, 0, false⟩) ∧
    ((loopTick N interval key st true now t h p code).2.sentCalled = true →
      (∃ ta, (st.sensor.update N t h p).getAverageTemperature N = some ta) ∧
      (∃ ha, (st.sensor.update N t h p).getAverageHumidity N = some ha) ∧
      (∃ pa, (st.sensor.update N t h p).getAveragePressure N = some pa)) := by
  unfold loopTick
  rw [if_neg (by simp), if_pos helapsed]
  split
  next ta ha pa h1 h2 h3 =>
    constructor
    · intro hnone
      rcases hnone with hn | hn | hn <;> simp_all
    · intro _
      exact ⟨⟨ta, h1⟩, ⟨ha, h2⟩, ⟨pa, h3⟩⟩
  next =>
    constructor
    · intro _
      rfl
    · intro hs
      simp at hs

/-- Witness for C6: with an empty buffer (capacity 3) and the cadence
elapsed, all averages are missing and the cycle produces one skip line,
zero transport calls and no send. -/
theorem C6_skip_on_missing_average_witness :
    (loopTick 3 0 "k" ⟨BME280Sensor.init 3, 0⟩ true 0 none none none 1).2 =
      ⟨true, 1, 0, false⟩ :=
  (C6_skip_on_missing_average 3 0 "k" ⟨BME280Sensor.init 3, 0⟩ 0 none none none 1
    (by decide)).1 (Or.inl rfl)

/-- Claim C9: in the revision `src/unnamed/part_000`, every connect attempt
logs the configured password verbatim, so the serial output is not
independent of the password: two runs that differ only in the password
produce different logs. -/
theorem C9_password_in_log (ssid pass1 pass2 ipAddr : String)
    (timeout last now dots : ℕ) (success : Bool)
    (hatt : timeout ≤ sub32 now last) (hne : pass1 ≠ pass2) :
    pass1 ∈ wifiUpdateLogV0 ssid pass1 timeout last now false dots success ipAddr ∧
    wifiUpdateLogV0 ssid pass1 timeout last now false dots success ipAddr ≠
      wifiUpdateLogV0 ssid pass2 timeout last now false dots success ipAddr := by
  have hlt : ¬ sub32 now last < timeout := Nat.not_lt.mpr hatt
  unfold wifiUpdateLogV0
  simp only [Bool.false_eq_true, if_false, if_neg hlt]
  constructor
  · exact List.mem_cons_of_mem _ (List.mem_cons_self _ _)
  · intro heq
    injection heq with h1 h2
    injection h2 with h3 h4
    exact hne h3

/-- Witness for C9 at concrete passwords "a" and "b". -/
theorem C9_password_in_log_witness :
    "a" ∈ wifiUpdateLogV0 "s" "a" 0 0 0 false 0 false "" ∧
    wifiUpdateLogV0 "s" "a" 0 0 0 false 0 false "" ≠
      wifiUpdateLogV0 "s" "b" 0 0 0 false 0 false "" :=
  C9_password_in_log "s" "a" "b" "" 0 0 0 0 false (by decide) (by decide)

/-- Run-level invariant of `WiFiManager::update` over a monotone bounded
clock: every recorded attempt happened on a tick with the link down and at
least `timeout` ms after the attempt timestamp held at entry, and
consecutive attempts are at least `timeout` ms apart. -/
theorem wifiRun_attempts_spec (timeout : ℕ) (ticks : List (ℕ × Bool)) :
    ∀ last : ℕ,
      (ticks.map Prod.fst).Pairwise (· ≤ ·) →
      (∀ x ∈ ticks, last ≤ x.1) →
      (∀ x ∈ ticks, x.1 - last < UINT32_MOD) →
      (∀ x ∈ (wifiRun timeout last ticks).2, x.2 = false ∧ last + timeout ≤ x.1) ∧
      ((wifiRun timeout last ticks).2.map Prod.fst).Chain'
        (fun a b => a + timeout ≤ b) := by
  induction ticks with
  | nil => intro last _ _ _; simp [wifiRun]
  | cons t ts ih =>
    obtain ⟨now, c⟩ := t
    intro last hmono hlow hbound
    rw [List.map_cons] at hmono
    have hpc := List.pairwise_cons.mp hmono
    have hmono' : (ts.map Prod.fst).Pairwise (· ≤ ·) := hpc.2
    have hnext : ∀ x ∈ ts, now ≤ x.1 := by
      intro x hx
      exact hpc.1 x.1 (List.mem_map_of_mem Prod.fst hx)
    have hnle : last ≤ now := hlow (now, c) (List.mem_cons_self _ _)
    have hnb : now - last < UINT32_MOD := hbound (now, c) (List.mem_cons_self _ _)
    by_cases hc : c = true
    · subst hc
      have hstep : wifiStep timeout last now true = (last, false) := by simp [wifiStep]
      have hrun : wifiRun timeout last ((now, true) :: ts) = wifiRun timeout last ts := by
        simp [wifiRun, hstep]
      rw [hrun]
      exact ih last hmono'
        (fun x hx => hlow x (List.mem_cons_of_mem _ hx))
        (fun x hx => hbound x (List.mem_cons_of_mem _ hx))
    · have hc' : c = false := by cases c <;> simp_all
      subst hc'
      by_cases hlt : sub32 now last < timeout
      · have hstep : wifiStep timeout last now false = (last, false) := by
          simp [wifiStep, hlt]
        have hrun : wifiRun timeout last ((now, false) :: ts) = wifiRun timeout last ts := by
          simp [wifiRun, hstep]
        rw [hrun]
        exact ih last hmono'
          (fun x hx => hlow x (List.mem_cons_of_mem _ hx))
          (fun x hx => hbound x (List.mem_cons_of_mem _ hx))
      · have hstep : wifiStep timeout last now false = (now, true) := by
          simp [wifiStep, hlt]
        have hgap : last + timeout ≤ now := by
          rw [sub32_eq_sub now last hnle hnb] at hlt
          omega
        have hrec := ih now hmono' hnext
          (fun x hx => by have := hbound x (List.mem_cons_of_mem _ hx); have := hnext x hx; omega)
        have hrun : (wifiRun timeout last ((now, false) :: ts)).2 =
            (now, false) :: (wifiRun timeout now ts).2 := by
          simp [wifiRun, hstep]
        rw [hrun]
        constructor
        · intro x hx
          rcases List.mem_cons.mp hx with hx | hx
          · subst hx
            exact ⟨rfl, hgap⟩
          · have h := hrec.1 x hx
            exact ⟨h.1, by omega⟩
        · rw [List.map_cons]
          rw [List.chain'_cons']
          refine ⟨?_, hrec.2⟩
          intro y hy
          rcases hmem : (wifiRun timeout now ts).2 with _ | ⟨r, rs⟩
          · rw [hmem] at hy
            simp at hy
          · rw [hmem] at hy
            simp at hy
            subst hy
            have := hrec.1 r (by rw [hmem]; exact List.mem_cons_self _ _)
            omega

/-- Claim C2: over any monotone tick sequence, `WiFiManager::update` never
issues a second connect request within `timeout` ms of the previous one,
never issues one while the link reports connected, and sets `lastAttempt`
to the current time exactly when a request is issued. -/
theorem C2_connect_rate_limited (timeout last : ℕ) (ticks : List (ℕ × Bool))
    (hmono : (ticks.map Prod.fst).Pairwise (· ≤ ·))
    (hlow : ∀ x ∈ ticks, last ≤ x.1)
    (hbound : ∀ x ∈ ticks, x.1 - last < UINT32_MOD) :
    ((wifiRun timeout last ticks).2.map Prod.fst).Chain' (fun a b => a + timeout ≤ b) ∧
    (∀ x ∈ (wifiRun timeout last ticks).2, x.2 = false) ∧
    (∀ l n, wifiStep timeout l n true = (l, false)) ∧
    (∀ l n c, (wifiStep timeout l n c).2 = true → (wifiStep timeout l n c).1 = n) := by
  have h := wifiRun_attempts_spec timeout ticks last hmono hlow hbound
  refine ⟨h.2, fun x hx => (h.1 x hx).1, fun l n => by simp [wifiStep], ?_⟩
  intro l n c hc
  have hs := (wifiStep_spec timeout l n c).1.mp hc
  rw [(wifiStep_spec timeout l n c).2, if_pos hs]

/-- Witness for C2: a concrete run with timeout 10 where ticks arrive at
times 0, 5, 12, 12 (connected), 30; attempts happen at 12 and 30 only. -/
theorem C2_connect_rate_limited_witness :
    0 + 10 ≤ 12 ∧
    ((wifiRun 10 0 [(0, false), (5, false), (12, false), (12, true), (30, false)]).2.map
        Prod.fst).Chain' (fun a b => a + 10 ≤ b) :=
  ⟨by decide,
    (C2_connect_rate_limited 10 0 [(0, false), (5, false), (12, false), (12, true), (30, false)]
      (by decide) (by decide) (by decide)).1⟩

/-- Window invariant of one ring-buffer channel: after the values `vals`
have been written in order, the first `vals.length % N` slots hold the
newest values in order; before the first wrap-around the buffer is `vals`
followed by the untouched zero initialisation, afterwards the remaining
slots hold the older part of the last-`N` window. -/
def bufferSpec (N : ℕ) (vals b : List ℚ) : Prop :=
  if N ≤ vals.length then
    b.length = N ∧
    b.take (vals.length % N) = vals.drop (vals.length - vals.length % N) ∧
    b.drop (vals.length % N) = (vals.drop (vals.length - N)).take (N - vals.length % N)
  else b = vals ++ List.replicate (N - vals.length) 0

/-- The zero-initialised buffer satisfies the window invariant for an empty
history. -/
theorem bufferSpec_nil (N : ℕ) (hN : 0 < N) : bufferSpec N [] (List.replicate N 0) := by
  unfold bufferSpec
  rw [if_neg (by simp only [List.length_nil]; omega)]
  simp

/-- Stepping by one mod `N` commutes with first reducing mod `N`. -/
theorem mod_succ_mod (k N : ℕ) : (k % N + 1) % N = (k + 1) % N := by
  conv_rhs => rw [Nat.add_mod]
  rw [Nat.add_mod (k % N) 1, Nat.mod_mod_of_dvd k dvd_rfl]

/-- One ring write at slot `vals.length % N` preserves the window
invariant. -/
theorem bufferSpec_set (N : ℕ) (hN : 0 < N) (vals b : List ℚ) (v : ℚ)
    (hs : bufferSpec N vals b) :
    bufferSpec N (vals ++ [v]) (b.set (vals.length % N) v) := by
  by_cases hNk : N ≤ vals.length
  · unfold bufferSpec at hs
    rw [if_pos hNk] at hs
    obtain ⟨hblen, h1, h2⟩ := hs
    have hiN : vals.length % N < N := Nat.mod_lt _ hN
    have hset : b.set (vals.length % N) v =
        b.take (vals.length % N) ++ v :: b.drop (vals.length % N + 1) :=
      List.set_eq_take_cons_drop v (by omega)
    have hmod : (vals.length + 1) % N = (vals.length % N + 1) % N :=
      (mod_succ_mod vals.length N).symm
    have hAlen : (b.take (vals.length % N)).length = vals.length % N := by
      rw [List.length_take]
      omega
    unfold bufferSpec
    rw [List.length_append, List.length_singleton, if_pos (by omega)]
    refine ⟨by rw [List.length_set]; exact hblen, ?_, ?_⟩
    · by_cases hwrap : vals.length % N + 1 = N
      · have hit : (vals.length + 1) % N = 0 := by
          rw [hmod, hwrap, Nat.mod_self]
        rw [hit, Nat.sub_zero, List.take_zero]
        symm
        apply List.drop_eq_nil_of_le
        simp
      · have hit : (vals.length + 1) % N = vals.length % N + 1 := by
          rw [hmod]
          exact Nat.mod_eq_of_lt (by omega)
        rw [hit, hset, List.take_append_eq_append_take,
          List.take_of_length_le (show (b.take (vals.length % N)).length ≤
            vals.length % N + 1 from by rw [hAlen]; omega),
          hAlen,
          show vals.length % N + 1 - vals.length % N = 1 from by omega,
          show vals.length + 1 - (vals.length % N + 1) =
            vals.length - vals.length % N from by omega,
          List.drop_append_of_le_length (by omega), h1]
        simp
    · by_cases hwrap : vals.length % N + 1 = N
      · have hit : (vals.length + 1) % N = 0 := by
          rw [hmod, hwrap, Nat.mod_self]
        rw [hit, Nat.sub_zero, List.drop_zero, hset,
          List.drop_eq_nil_of_le (show b.length ≤ vals.length % N + 1 from by omega),
          show vals.length + 1 - N = vals.length - vals.length % N from by omega,
          List.drop_append_of_le_length (by omega), ← h1,
          List.take_of_length_le (show (b.take (vals.length % N) ++ [v]).length ≤ N from by
            rw [List.length_append, hAlen, List.length_singleton]
            omega)]
      · have hit : (vals.length + 1) % N = vals.length % N + 1 := by
          rw [hmod]
          exact Nat.mod_eq_of_lt (by omega)
        rw [hit, hset, List.drop_append_eq_append_drop,
          List.drop_eq_nil_of_le (show (b.take (vals.length % N)).length ≤
            vals.length % N + 1 from by rw [hAlen]; omega),
          hAlen,
          show vals.length % N + 1 - vals.length % N = 1 from by omega,
          List.nil_append, List.drop_one, List.tail_cons,
          ← List.drop_drop 1 (vals.length % N) b, h2,
          List.drop_take, List.drop_drop,
          show N - vals.length % N - 1 = N - (vals.length % N + 1) from by omega,
          show vals.length - N + 1 = vals.length + 1 - N from by omega,
          List.drop_append_of_le_length (show vals.length + 1 - N ≤ vals.length from by omega),
          List.take_append_eq_append_take,
          show (vals.drop (vals.length + 1 - N)).length = N - 1 from by
            rw [List.length_drop]
            omega,
          show N - (vals.length % N + 1) - (N - 1) = 0 from by omega,
          List.take_zero, List.append_nil]
  · unfold bufferSpec at hs
    rw [if_neg hNk] at hs
    have hik : vals.length % N = vals.length := Nat.mod_eq_of_lt (by omega)
    have hbset : b.set (vals.length % N) v =
        vals ++ v :: List.replicate (N - vals.length - 1) 0 := by
      rw [hik, hs, show N - vals.length = (N - vals.length - 1) + 1 from by omega,
        List.replicate_succ,
        List.set_eq_take_cons_drop v (by
          rw [List.length_append, List.length_cons, List.length_replicate]
          omega),
        List.take_left' rfl, List.drop_append_eq_append_drop,
        List.drop_eq_nil_of_le (show vals.length ≤ vals.length + 1 from by omega),
        show vals.length + 1 - vals.length = 1 from by omega,
        List.drop_one, List.tail_cons, List.nil_append]
      simp
    by_cases hfull : vals.length + 1 = N
    · unfold bufferSpec
      rw [List.length_append, List.length_singleton, if_pos (by omega)]
      have hit : (vals.length + 1) % N = 0 := by
        rw [hfull, Nat.mod_self]
      refine ⟨?_, ?_, ?_⟩
      · rw [List.length_set, hs, List.length_append, List.length_replicate]
        omega
      · rw [hit, Nat.sub_zero, List.take_zero]
        symm
        apply List.drop_eq_nil_of_le
        simp
      · rw [hit, Nat.sub_zero, List.drop_zero, hbset,
          show N - vals.length - 1 = 0 from by omega, List.replicate_zero,
          show vals.length + 1 - N = 0 from by omega, List.drop_zero,
          List.take_of_length_le (by
            rw [List.length_append, List.length_singleton]
            omega)]
    · unfold bufferSpec
      rw [List.length_append, List.length_singleton, if_neg (by omega), hbset,
        show N - (vals.length + 1) = N - vals.length - 1 from by omega,
        List.append_assoc, List.singleton_append]

/-- `runValid` over `L ++ [r]` is one more update after `runValid` over
`L`. -/
theorem runValid_append_single (N : ℕ) (L : List (ℚ × ℚ × ℚ)) (r : ℚ × ℚ × ℚ) :
    runValid N (L ++ [r]) =
      (runValid N L).update N (some r.1) (some r.2.1) (some r.2.2) := by
  unfold runValid BME280Sensor.run
  rw [List.map_append, List.foldl_append]
  rfl

/-- The `filled` flag after one more write equals `N ≤ k + 1`. -/
theorem filled_step (N k : ℕ) :
    (decide (N ≤ k) || ((k % N + 1) % N == 0)) = decide (N ≤ k + 1) := by
  rw [mod_succ_mod]
  rcases le_or_lt N k with h | h
  · rw [decide_eq_true h, decide_eq_true (by omega : N ≤ k + 1), Bool.true_or]
  · rw [decide_eq_false (by omega : ¬ N ≤ k), Bool.false_or]
    by_cases h2 : k + 1 = N
    · rw [h2, Nat.mod_self, decide_eq_true (le_refl N)]
      rfl
    · rw [Nat.mod_eq_of_lt (by omega), decide_eq_false (by omega : ¬ N ≤ k + 1)]
      simp

/-- State invariant of a run of valid ingests: the cursor is the ingest
count mod `N`, the `filled` flag says whether at least `N` ingests
happened, and each channel buffer satisfies the window invariant for that
channel's history. -/
theorem runValid_spec (N : ℕ) (hN : 0 < N) (L : List (ℚ × ℚ × ℚ)) :
    (runValid N L).index = L.length % N ∧
    (runValid N L).filled = decide (N ≤ L.length) ∧
    bufferSpec N (L.map fun x => x.1) (runValid N L).tempBuffer ∧
    bufferSpec N (L.map fun x => x.2.1) (runValid N L).humBuffer ∧
    bufferSpec N (L.map fun x => x.2.2) (runValid N L).presBuffer := by
  induction L using List.reverseRecOn with
  | nil =>
    refine ⟨(Nat.zero_mod N).symm, ?_, ?_, ?_, ?_⟩
    · exact (decide_eq_false (by omega : ¬ N ≤ 0)).symm
    · exact bufferSpec_nil N hN
    · exact bufferSpec_nil N hN
    · exact bufferSpec_nil N hN
  | append_singleton L r ih =>
    obtain ⟨hidx, hfill, hT, hH, hP⟩ := ih
    rw [runValid_append_single]
    refine ⟨?_, ?_, ?_, ?_, ?_⟩
    · simp only [BME280Sensor.update]
      rw [hidx, List.length_append, List.length_singleton, mod_succ_mod]
    · simp only [BME280Sensor.update]
      rw [hfill, hidx, List.length_append, List.length_singleton,
        filled_step N L.length]
    · have hstep := bufferSpec_set N hN (L.map fun x => x.1)
        (runValid N L).tempBuffer r.1 hT
      rw [List.length_map] at hstep
      simp only [BME280Sensor.update, List.map_append, List.map_cons, List.map_nil]
      rw [hidx]
      exact hstep
    · have hstep := bufferSpec_set N hN (L.map fun x => x.2.1)
        (runValid N L).humBuffer r.2.1 hH
      rw [List.length_map] at hstep
      simp only [BME280Sensor.update, List.map_append, List.map_cons, List.map_nil]
      rw [hidx]
      exact hstep
    · have hstep := bufferSpec_set N hN (L.map fun x => x.2.2)
        (runValid N L).presBuffer r.2.2 hP
      rw [List.length_map] at hstep
      simp only [BME280Sensor.update, List.map_append, List.map_cons, List.map_nil]
      rw [hidx]
      exact hstep

/-- A buffer satisfying the window invariant averages to the mean of the
last `min k N` ingested values. -/
theorem average_of_bufferSpec (N : ℕ) (hN : 0 < N) (vals b : List ℚ)
    (hspec : bufferSpec N vals b) :
    average N (decide (N ≤ vals.length)) (vals.length % N) b =
      (if min vals.length N = 0 then none
       else some ((vals.drop (vals.length - min vals.length N)).sum /
         ((min vals.length N : ℕ) : ℚ))) := by
  unfold average
  by_cases hNk : N ≤ vals.length
  · unfold bufferSpec at hspec
    rw [if_pos hNk] at hspec
    obtain ⟨hblen, h1, h2⟩ := hspec
    have hmin : min vals.length N = N := by omega
    have hiN : vals.length % N < N := Nat.mod_lt _ hN
    simp only [decide_eq_true_eq]
    rw [if_pos hNk, hmin, if_neg (by omega : ¬ N = 0), if_neg (by omega : ¬ N = 0)]
    have hbt : b.take N = b := List.take_of_length_le (by omega)
    rw [hbt]
    have hsum : b.sum = (vals.drop (vals.length - N)).sum := by
      rw [← List.take_append_drop (vals.length % N) b, List.sum_append, h1, h2]
      conv_rhs =>
        rw [← List.take_append_drop (N - vals.length % N) (vals.drop (vals.length - N))]
      rw [List.sum_append, List.drop_drop,
        show vals.length - N + (N - vals.length % N) =
          vals.length - vals.length % N from by omega]
      exact add_comm _ _
    rw [hsum]
  · unfold bufferSpec at hspec
    rw [if_neg hNk] at hspec
    have hik : vals.length % N = vals.length := Nat.mod_eq_of_lt (by omega)
    have hmin : min vals.length N = vals.length := by omega
    simp only [decide_eq_true_eq]
    rw [if_neg hNk, hik, hmin, Nat.sub_self, List.drop_zero]
    by_cases h0 : vals.length = 0
    · rw [if_pos h0, if_pos h0]
    · rw [if_neg h0, if_neg h0, hspec, List.take_left' rfl]

/-- Claim C1: after any sequence of valid ingests into a capacity-`N`
buffer, each channel's average is `none` when nothing has ever been stored,
and otherwise is the arithmetic mean of exactly the most recent
`min k N` ingested values of that channel (strict FIFO eviction of the
oldest beyond `N`). -/
theorem C1_sliding_window_average (N : ℕ) (hN : 0 < N) (L : List (ℚ × ℚ × ℚ)) :
    (runValid N L).getAverageTemperature N =
      (if min L.length N = 0 then none
       else some (((L.map fun x => x.1).drop (L.length - min L.length N)).sum /
         ((min L.length N : ℕ) : ℚ))) ∧
    (runValid N L).getAverageHumidity N =
      (if min L.length N = 0 then none
       else some (((L.map fun x => x.2.1).drop (L.length - min L.length N)).sum /
         ((min L.length N : ℕ) : ℚ))) ∧
    (runValid N L).getAveragePressure N =
      (if min L.length N = 0 then none
       else some (((L.map fun x => x.2.2).drop (L.length - min L.length N)).sum /
         ((min L.length N : ℕ) : ℚ))) := by
  obtain ⟨hidx, hfill, hT, hH, hP⟩ := runValid_spec N hN L
  refine ⟨?_, ?_, ?_⟩
  · unfold BME280Sensor.getAverageTemperature
    rw [hidx, hfill]
    have h := average_of_bufferSpec N hN (L.map fun x => x.1)
      (runValid N L).tempBuffer hT
    rw [List.length_map] at h
    exact h
  · unfold BME280Sensor.getAverageHumidity
    rw [hidx, hfill]
    have h := average_of_bufferSpec N hN (L.map fun x => x.2.1)
      (runValid N L).humBuffer hH
    rw [List.length_map] at h
    exact h
  · unfold BME280Sensor.getAveragePressure
    rw [hidx, hfill]
    have h := average_of_bufferSpec N hN (L.map fun x => x.2.2)
      (runValid N L).presBuffer hP
    rw [List.length_map] at h
    exact h

/-- Witness for C1: a capacity-3 buffer fed the four valid readings
10, 20, 30, 40 averages to (20+30+40)/3 = 30 (the spec's own scenario). -/
theorem C1_sliding_window_average_witness :
    0 < 3 ∧
    (runValid 3 [(10, 10, 10), (20, 20, 20), (30, 30, 30),
      (40, 40, 40)]).getAverageTemperature 3 = some 30 := by
  refine ⟨by decide, ?_⟩
  have h := (C1_sliding_window_average 3 (by decide)
    [(10, 10, 10), (20, 20, 20), (30, 30, 30), (40, 40, 40)]).1
  rw [h]
  with_unfolding_all rfl
